import Mathlib

/-!
Shallow embedding of the recipe_viewer timer orchestration subsystem:
the `Timer` entity (src/js/modules/timer/timer.js), the timer registry
(timer-core.js), the module facade (timer/index.js), the render/update
queue (timer-ui.js) and the duration extractor (timer utilities).
JS objects keyed by id and ES `Map`s are modelled as insertion-ordered
association lists; `setInterval` handles are modelled by a Boolean
"active interval" flag; the unique string ids minted from
`Date.now()`/`Math.random()` are modelled by a `nextId` counter.
-/

namespace RecipeViewer

/-- JS object property update `obj[k] = v`: replace in place if the key is
present (keeping insertion order), otherwise append. ES `Map.set` has the
same semantics. -/
def insertA {α : Type} : List (Nat × α) → Nat → α → List (Nat × α)
  | [], k, v => [(k, v)]
  | (k', v') :: rest, k, v =>
      if k' = k then (k, v) :: rest else (k', v') :: insertA rest k v

/-- JS object property read `obj[k]`, `undefined` when absent. -/
def lookupA {α : Type} : List (Nat × α) → Nat → Option α
  | [], _ => none
  | (k', v') :: rest, k => if k' = k then some v' else lookupA rest k

/-- JS `delete obj[k]`. -/
def eraseA {α : Type} : List (Nat × α) → Nat → List (Nat × α)
  | [], _ => []
  | (k', v') :: rest, k => if k' = k then rest else (k', v') :: eraseA rest k

/-- String-keyed JS object property update (for the step-key → signature
set map of the module facade). -/
def insertS {α : Type} : List (String × α) → String → α → List (String × α)
  | [], k, v => [(k, v)]
  | (k', v') :: rest, k, v =>
      if k' = k then (k, v) :: rest else (k', v') :: insertS rest k v

/-- String-keyed JS object property read. -/
def lookupS {α : Type} : List (String × α) → String → Option α
  | [], _ => none
  | (k', v') :: rest, k => if k' = k then some v' else lookupS rest k

/-- JS `a || b` for strings: the empty string is falsy. -/
def jsOrStr (a : Option String) (b : String) : String :=
  match a with
  | some s => if s = "" then b else s
  | none => b

/-- JS `a || b` for numbers: `0` is falsy (`undefined` too). -/
def jsOrInt (a : Option Int) (b : Int) : Int :=
  match a with
  | some n => if n = 0 then b else n
  | none => b

/-- Does the character list start with the given pattern? -/
def listStartsWith : List Char → List Char → Bool
  | _, [] => true
  | [], _ :: _ => false
  | a :: as, b :: bs => a = b && listStartsWith as bs

/-- JS `String.prototype.includes`: contiguous substring test. -/
def listIncludes : List Char → List Char → Bool
  | [], sub => sub.isEmpty
  | hay@(_ :: t), sub => listStartsWith hay sub || listIncludes t sub

/-- JS `hay.includes(sub)`. -/
def jsIncludes (hay sub : String) : Bool :=
  listIncludes hay.toList sub.toList

/-- JS `s.endsWith(suffix)`. -/
def jsEndsWith (s suffix : String) : Bool :=
  listStartsWith s.toList.reverse suffix.toList.reverse

/-- JS `String.prototype.toLowerCase` (ASCII names only in this app). -/
def strToLower (s : String) : String :=
  String.mk (s.toList.map Char.toLower)

/-- JS `String.prototype.trim`. -/
def strTrim (s : String) : String :=
  String.mk
    (((s.toList.dropWhile Char.isWhitespace).reverse.dropWhile
      Char.isWhitespace).reverse)

/-- Accumulator loop for `splitWsTokens`. -/
def splitWsAux : List Char → List Char → List String
  | [], acc => if acc.isEmpty then [] else [String.mk acc.reverse]
  | c :: rest, acc =>
      if c.isWhitespace then
        if acc.isEmpty then splitWsAux rest []
        else String.mk acc.reverse :: splitWsAux rest []
      else splitWsAux rest (c :: acc)

/-- JS `s.split(/\s+/)` on an already-trimmed string: whitespace-separated
tokens, no empties. -/
def splitWsTokens (s : String) : List String :=
  splitWsAux s.toList []

/-- Accumulator loop for `splitOnChar`. -/
def splitOnCharAux (sep : Char) : List Char → List Char → List String
  | [], acc => [String.mk acc.reverse]
  | c :: rest, acc =>
      if c = sep then String.mk acc.reverse :: splitOnCharAux sep rest []
      else splitOnCharAux sep rest (c :: acc)

/-- JS `s.split('-')`. -/
def splitOnChar (sep : Char) (s : String) : List String :=
  splitOnCharAux sep s.toList []

/-- Timer lifecycle status (`TimerStatus` enum of timer-core.js). -/
inductive TimerStatus
  | idle
  | running
  | paused
  | completed
deriving DecidableEq

/-- The metadata fields consulted by the duplicate-signature computation
and the step-key bookkeeping (`stepId`, `source`, `bulletIndex`,
`matchIndex`); `none` models an absent (`undefined`) property. The other
metadata entries (phase, titles, source text) never drive control flow. -/
structure TimerMetadata where
  stepId : Option Int
  source : Option String
  bulletIndex : Option Int
  matchIndex : Option Int
deriving DecidableEq

/-- The absent metadata object (`{}`). -/
def TimerMetadata.empty : TimerMetadata :=
  ⟨none, none, none, none⟩

/-- The `Timer` entity (timer.js). `intervalActive` models whether the
object currently owns a live `setInterval` tick; `runningFlag` is the
`_isRunning` field. Wall-clock fields (`startTime`, `pauseTime`,
`createTime`) are informational only and not modelled. `completion` is
kept as an exact rational (JS computes it in floating point; no claim
depends on its rounding). -/
structure Timer where
  id : Nat
  name : String
  duration : Int
  remaining : Int
  intervalActive : Bool
  runningFlag : Bool
  status : TimerStatus
  completion : ℚ
  metadata : TimerMetadata
deriving DecidableEq

/-- The `Timer` constructor. -/
def Timer.new (id : Nat) (name : String) (duration : Int)
    (metadata : TimerMetadata) : Timer :=
  { id := id
    name := name
    duration := duration
    remaining := duration
    intervalActive := false
    runningFlag := false
    status := .idle
    completion := 0
    metadata := metadata }

/-- `Timer.prototype.start`: no-op when `_isRunning`; otherwise flips to
running and (re)installs the periodic tick interval. -/
def Timer.start (t : Timer) : Timer :=
  if t.runningFlag then t
  else { t with runningFlag := true, status := .running, intervalActive := true }

/-- `Timer.prototype.pause`: no-op when not `_isRunning`; otherwise flips
to paused and clears the interval. -/
def Timer.pause (t : Timer) : Timer :=
  if !t.runningFlag then t
  else { t with runningFlag := false, status := .paused, intervalActive := false }

/-- `Timer.prototype.reset`: pause, then restore `remaining = duration`,
`status = idle`, `completion = 0`. -/
def Timer.reset (t : Timer) : Timer :=
  let t1 := t.pause
  { t1 with remaining := t.duration, status := .idle, completion := 0 }

/-- The field mutations performed by `Timer.prototype.complete` before it
invokes the registered `onComplete` callback: pause (clearing the tick),
then `status = completed`, `remaining = 0`, `completion = 100`. -/
def Timer.completeFields (t : Timer) : Timer :=
  let t1 := t.pause
  { t1 with status := .completed, remaining := 0, completion := 100 }

/-- `Timer.prototype.rename`. -/
def Timer.rename (t : Timer) (name : String) : Timer :=
  { t with name := name }

/-- `Timer.prototype.addMetadata`: object spread `{...old, ...new}`; a
field present on the update wins. -/
def Timer.addMetadata (t : Timer) (m : TimerMetadata) : Timer :=
  { t with metadata :=
      { stepId := m.stepId.orElse fun _ => t.metadata.stepId
        source := m.source.orElse fun _ => t.metadata.source
        bulletIndex := m.bulletIndex.orElse fun _ => t.metadata.bulletIndex
        matchIndex := m.matchIndex.orElse fun _ => t.metadata.matchIndex } }

/-- One serialized snapshot entry, as written by `saveTimersToStorage`:
`{id, name, duration, remainingTime, status, completion, metadata}`. -/
structure SerializedTimer where
  id : Nat
  name : String
  duration : Int
  remainingTime : Int
  status : TimerStatus
  completion : ℚ
  metadata : TimerMetadata
deriving DecidableEq

/-- Serialize one timer (body of the `map` in `saveTimersToStorage`). -/
def serializeTimer (t : Timer) : SerializedTimer :=
  { id := t.id
    name := t.name
    duration := t.duration
    remainingTime := t.remaining
    status := t.status
    completion := t.completion
    metadata := t.metadata }

/-- Registry (core service) state from `createTimerCore`: the id → entity
map `timers`, the id set of registry-owned 1 Hz intervals
(`timerIntervals`), the fresh-id source (modelling the
`'timer_' + Date.now() + '_' + random` generator), and the durable
key/value record under `recipe-viewer-timers` (`storage`). -/
structure CoreState where
  timers : List (Nat × Timer)
  intervals : List Nat
  nextId : Nat
  storage : List SerializedTimer
deriving DecidableEq

/-- `saveTimersToStorage`: write the serialized form of every stored
timer to the persistence record. -/
def CoreState.saveTimersToStorage (s : CoreState) : CoreState :=
  { s with storage := s.timers.map fun p => serializeTimer p.2 }

/-- `persistTimers`: when the registry is empty, force the stored record
to the empty snapshot; otherwise save all timers. -/
def CoreState.persistTimers (s : CoreState) : CoreState :=
  if s.timers.isEmpty then { s with storage := [] }
  else s.saveTimersToStorage

/-- `completeTimer` of timer-core.js, fuelled by the remaining JS call
stack. `timer.complete()` mutates the entity's fields and then invokes
the `onComplete` callback installed at creation, which is
`() => this.completeTimer(id)` — the registry routine itself, so the two
recurse into each other until the stack is exhausted. Fuel `0` models the
stack-overflow throw. Result: new state, the number of `timer:completed`
events published, and whether the call threw. A frame whose recursive
callback threw is caught by the routine's `try`/`catch` and publishes
nothing; every other frame publishes one `timer:completed` and persists. -/
def CoreState.completeTimer : Nat → Nat → CoreState → CoreState × Nat × Bool
  | 0, _, s => (s, 0, true)
  | fuel + 1, id, s =>
      match lookupA s.timers id with
      | none => (s, 0, false)
      | some t =>
          let s1 := { s with timers := insertA s.timers id t.completeFields }
          let r := CoreState.completeTimer fuel id s1
          if r.2.2 then (r.1, r.2.1, false)
          else (r.1.persistTimers, r.2.1 + 1, false)

/-- The entity-side `Timer.prototype.complete` as reached from the
entity's own tick interval: mutate the fields, then run the `onComplete`
callback (`completeTimer`); `Timer.complete` has no `try`/`catch`, so a
throw from the callback propagates. -/
def CoreState.entityComplete (fuel : Nat) (id : Nat) (s : CoreState) :
    CoreState × Nat × Bool :=
  match lookupA s.timers id with
  | none => (s, 0, false)
  | some t =>
      let s1 := { s with timers := insertA s.timers id t.completeFields }
      CoreState.completeTimer fuel id s1

/-- The body of the entity's 1 Hz `setInterval` installed by
`Timer.prototype.start`: decrement `remaining`, recompute `completion`,
and invoke `this.complete()` once `remaining ≤ 0`. -/
def CoreState.entityTick (fuel : Nat) (id : Nat) (s : CoreState) :
    CoreState × Nat × Bool :=
  match lookupA s.timers id with
  | none => (s, 0, false)
  | some t =>
      let t1 := { t with
        remaining := t.remaining - 1
        completion := ((t.duration - (t.remaining - 1) : ℚ) / (t.duration : ℚ)) * 100 }
      let s1 := { s with timers := insertA s.timers id t1 }
      if t1.remaining ≤ 0 then s1.entityComplete fuel id else (s1, 0, false)

/-- Creation payload (`timerData`): optional `name`, `duration`,
`metadata`, `autoStart`; `none` models an absent property. -/
structure TimerData where
  name : Option String
  duration : Option Int
  autoStart : Bool
  metadata : TimerMetadata
deriving DecidableEq

/-- `createTimer` of timer-core.js: mint a fresh id, construct the
entity (name defaulting to "Timer" when falsy, duration to 60), store
it, persist, publish `timer:created` and return the id. The `autoStart`
short-delay start is a scheduled task and not part of this synchronous
step. No duplicate-signature check happens here. -/
def CoreState.createTimer (s : CoreState) (td : TimerData) : CoreState × Nat :=
  let id := s.nextId
  let t := Timer.new id (jsOrStr td.name "Timer") (jsOrInt td.duration 60)
    td.metadata
  let s1 := { s with timers := insertA s.timers id t, nextId := s.nextId + 1 }
  (s1.persistTimers, id)

/-- `handleCreateRequest`, the subscriber on `timer:request:create`:
create unconditionally, publish `timer:created:response {id}` (the
returned id), persist again. -/
def CoreState.handleCreateRequest (s : CoreState) (td : TimerData) :
    CoreState × Nat :=
  let r := s.createTimer td
  (r.1.persistTimers, r.2)

/-- `startTimer`: `false` for an unknown id; otherwise start the entity
and install the registry's own 1 Hz update interval if not yet present.
Publishes `timer:started`; does not persist. -/
def CoreState.startTimer (s : CoreState) (id : Nat) : CoreState × Bool :=
  match lookupA s.timers id with
  | none => (s, false)
  | some t =>
      let s1 := { s with timers := insertA s.timers id t.start }
      let s2 := if id ∈ s1.intervals then s1
        else { s1 with intervals := s1.intervals ++ [id] }
      (s2, true)

/-- `pauseTimer`: `false` for an unknown id; otherwise pause the entity.
Publishes `timer:paused`; does not persist and does not clear the
registry-side interval. -/
def CoreState.pauseTimer (s : CoreState) (id : Nat) : CoreState × Bool :=
  match lookupA s.timers id with
  | none => (s, false)
  | some t => ({ s with timers := insertA s.timers id t.pause }, true)

/-- `resetTimer`: `false` for an unknown id; otherwise reset the entity.
Publishes `timer:reset`; does not persist. -/
def CoreState.resetTimer (s : CoreState) (id : Nat) : CoreState × Bool :=
  match lookupA s.timers id with
  | none => (s, false)
  | some t => ({ s with timers := insertA s.timers id t.reset }, true)

/-- `removeTimer`: `false` for an unknown id; otherwise clean up the
entity (cancelling its interval), drop it from the map, clear the
registry-side interval, persist, publish `timer:removed`. -/
def CoreState.removeTimer (s : CoreState) (id : Nat) : CoreState × Bool :=
  match lookupA s.timers id with
  | none => (s, false)
  | some _ =>
      let s1 := { s with timers := eraseA s.timers id,
                         intervals := s.intervals.erase id }
      (s1.persistTimers, true)

/-- `handleRenameRequest`: rename the entity when present, persist,
publish `timer:renamed`; unknown ids are logged and ignored. -/
def CoreState.renameTimer (s : CoreState) (id : Nat) (name : String) : CoreState :=
  match lookupA s.timers id with
  | none => s
  | some t =>
      ({ s with timers := insertA s.timers id (t.rename name) }).persistTimers

/-- `handleAddMetadataRequest`: merge metadata when present, persist,
publish `timer:metadata:added`; unknown ids are logged and ignored. -/
def CoreState.addMetadata (s : CoreState) (id : Nat) (m : TimerMetadata) :
    CoreState :=
  match lookupA s.timers id with
  | none => s
  | some t =>
      ({ s with timers := insertA s.timers id (t.addMetadata m) }).persistTimers

/-- `handleClearAllRequest`: remove every timer, force the maps empty,
clear every interval, persist (writing the empty snapshot), publish
`timers:cleared`. -/
def CoreState.clearAll (s : CoreState) : CoreState :=
  let s1 := (s.timers.map Prod.fst).foldl (fun acc id => (acc.removeTimer id).1) s
  ({ s1 with timers := [], intervals := [] }).persistTimers

/-- Reconstruction of one stored timer in `loadTimers`: the `Timer`
constructor (no interval, not running), then
`remaining = remainingTime || duration` (JS `||`: a stored remaining of
`0` falls back to the full duration), `status = status || 'idle'` (a
stored status is never the empty string, so it is kept), and
`completion = completion || 0`. -/
def loadTimer (sd : SerializedTimer) : Timer :=
  let t := Timer.new sd.id sd.name sd.duration sd.metadata
  { t with
    remaining := if sd.remainingTime = 0 then sd.duration else sd.remainingTime
    status := sd.status
    completion := if sd.completion = 0 then 0 else sd.completion }

/-- `loadTimers`: rebuild the id → entity map from the stored snapshot
sequence, in order (`this.timers[timerData.id] = timer`). -/
def loadTimers (stored : List SerializedTimer) : List (Nat × Timer) :=
  stored.foldl (fun acc sd => insertA acc sd.id (loadTimer sd)) []

/-- `TimerModule._createTimerSignature`:
`` `${stepId}-${source}-${bulletIndex}-${matchIndex}-${duration}` ``
with JS defaulting — `metadata?.stepId || 'unknown'` (so a falsy `0`
becomes `"unknown"`), `timerData.duration || 0`,
`metadata?.source || 'unknown'`, and `-1` for an `undefined`
`bulletIndex`/`matchIndex`. -/
def createTimerSignature (td : TimerData) : String :=
  let stepIdStr := match td.metadata.stepId with
    | some n => if n = 0 then "unknown" else toString n
    | none => "unknown"
  let durationStr := toString (jsOrInt td.duration 0)
  let sourceStr := jsOrStr td.metadata.source "unknown"
  let bulletStr := match td.metadata.bulletIndex with
    | some n => toString n
    | none => "-1"
  let matchStr := match td.metadata.matchIndex with
    | some n => toString n
    | none => "-1"
  stepIdStr ++ "-" ++ sourceStr ++ "-" ++ bulletStr ++ "-" ++ matchStr ++ "-"
    ++ durationStr

/-- Module facade state (`TimerModule` of timer/index.js): the owned
core plus the `stepTimers` map, step key → set of signatures already
created for that step. -/
structure ModuleState where
  core : CoreState
  stepTimers : List (String × List String)
deriving DecidableEq

/-- `TimerModule.createTimer`: when `metadata.stepId` is defined, compute
the duplicate signature; if it was already recorded under
`` `step-${stepId}` `` the request is suppressed and the facade returns
`Promise.resolve(null)` without publishing anything. Otherwise the
facade records the signature and publishes `timer:request:create`
first — the bus dispatches synchronously, so `handleCreateRequest`
stores the entity and publishes `timer:created:response` inside that
call — and only afterwards constructs the returned promise and
subscribes its response listener (the bus exposes no `subscribeOnce`,
so the plain `subscribe` fallback runs). The response has thus already
been emitted with no listener attached; provided no other create
request publishes a response during the 3-second window, the listener
never fires and the timeout resolves the promise with `null`. The
second component is that resolution value — `none` on every path; the
id the registry responded with is `(core.handleCreateRequest td).2`,
published into the void. Without a defined `stepId` no dedup applies,
but the response is missed all the same. -/
def ModuleState.createTimer (m : ModuleState) (td : TimerData) :
    ModuleState × Option Nat :=
  let sig := createTimerSignature td
  match td.metadata.stepId with
  | some sid =>
      let stepKey := "step-" ++ toString sid
      let sigs := (lookupS m.stepTimers stepKey).getD []
      if sig ∈ sigs then (m, none)
      else
        let m1 := { m with stepTimers := insertS m.stepTimers stepKey (sigs ++ [sig]) }
        let r := m1.core.handleCreateRequest td
        ({ m1 with core := r.1 }, none)
  | none =>
      let r := m.core.handleCreateRequest td
      ({ m with core := r.1 }, none)

/-- `findTimerIdByName` of timer-core.js. Pass 1: exact case-insensitive
match. Pass 2: exact match against the query with `" timer"` appended
when absent (a query already ending in `" timer"` is retried verbatim).
Pass 3: per query token of length ≥ 3, in order, first stored name
containing the token. Pass 4: bidirectional substring containment. -/
def findTimerIdByName (timers : List (Nat × Timer)) (name : String) :
    Option Nat :=
  let normalizedName := strToLower (strTrim name)
  match timers.find? fun p => strToLower p.2.name = normalizedName with
  | some p => some p.1
  | none =>
  let nameWithSuffix := if jsEndsWith normalizedName " timer" then normalizedName
    else normalizedName ++ " timer"
  match timers.find? fun p => strToLower p.2.name = nameWithSuffix with
  | some p => some p.1
  | none =>
  let words := splitWsTokens normalizedName
  match words.findSome? fun word =>
      if word.length < 3 then none
      else (timers.find? fun p => jsIncludes (strToLower p.2.name) word).map Prod.fst with
  | some id => some id
  | none =>
  (timers.find? fun p =>
      jsIncludes (strToLower p.2.name) normalizedName
        || jsIncludes normalizedName (strToLower p.2.name)).map Prod.fst

/-- `handleRemoveByNameRequest`: a falsy `name` is rejected; otherwise
resolve the name and, when found, remove that timer and publish the
response; no match is a no-op. -/
def CoreState.removeByName (s : CoreState) (name : String) : CoreState × Bool :=
  if name = "" then (s, false)
  else
    match findTimerIdByName s.timers name with
    | none => (s, false)
    | some id => s.removeTimer id

/-- Case-insensitive ASCII prefix test (the `i` flag of `TIME_REGEX`). -/
def listStartsWithCI : List Char → List Char → Bool
  | _, [] => true
  | [], _ :: _ => false
  | a :: as, b :: bs => a.toLower = b.toLower && listStartsWithCI as bs

/-- The unit alternation of `TIME_REGEX`,
`hour|hr|hrs|minute|min|mins|second|sec|secs`, in JS order (ordered
alternation: the first alternative that matches wins, so `hrs`, `mins`
and `secs` are shadowed by their two-letter/three-letter forms). Returns
the lower-cased matched unit (`match[2].toLowerCase()`) and the rest. -/
def matchTimeUnit (cs : List Char) : Option (String × List Char) :=
  let alts := ["hour", "hr", "hrs", "minute", "min", "mins", "second", "sec", "secs"]
  alts.findSome? fun alt =>
    if listStartsWithCI cs alt.toList then some (alt, cs.drop alt.length)
    else none

/-- Try `TIME_REGEX` = `(\d+(?:-\d+)?)\s*(unit)` anchored at the head of
the character list: greedy digits, an optional `-digits` range part,
optional whitespace, then the unit alternation. Returns the captured
value string (`match[1]`), the unit and the remaining characters. -/
def matchTimeAt (cs : List Char) : Option (String × String × List Char) :=
  let ds := cs.takeWhile Char.isDigit
  let r1 := cs.dropWhile Char.isDigit
  if ds.isEmpty then none
  else
    let vr : List Char × List Char :=
      match r1 with
      | '-' :: r2 =>
          let ds2 := r2.takeWhile Char.isDigit
          if ds2.isEmpty then (ds, r1)
          else (ds ++ '-' :: ds2, r2.dropWhile Char.isDigit)
      | _ => (ds, r1)
    let r3 := vr.2.dropWhile Char.isWhitespace
    match matchTimeUnit r3 with
    | none => none
    | some (u, rest) => some (String.mk vr.1, u, rest)

/-- The global `exec` scan of `TIME_REGEX`: leftmost, non-overlapping
matches; a failed position advances by one character. `fuel` bounds the
loop by the input length (every step consumes at least one character). -/
def scanTimes : Nat → List Char → List (String × String)
  | 0, _ => []
  | _, [] => []
  | fuel + 1, cs@(_ :: t) =>
      match matchTimeAt cs with
      | some (v, u, rest) => (v, u) :: scanTimes fuel rest
      | none => scanTimes fuel t

/-- `parseInt` on a non-empty all-digit string. -/
def parseDigits (s : String) : Nat :=
  s.toList.foldl (fun acc c => acc * 10 + (c.toNat - '0'.toNat)) 0

/-- The per-match value computation of `extractDuration`: a range
`"N-M"` is split at `-` and the upper bound taken (`max || min`), else
the plain number is parsed. -/
def timeMatchValue (valueStr : String) : Nat :=
  if valueStr.toList.contains '-' then
    let parts := splitOnChar '-' valueStr
    let lo := parseDigits (parts.getD 0 "")
    let hi := parseDigits (parts.getD 1 "")
    if hi = 0 then lo else hi
  else parseDigits valueStr

/-- The per-match unit conversion of `extractDuration`. -/
def timeUnitSeconds (unit : String) (value : Nat) : Nat :=
  if listStartsWith unit.toList "hour".toList || unit = "hr" || unit = "hrs" then
    value * 3600
  else if listStartsWith unit.toList "min".toList || unit = "mins" then
    value * 60
  else if listStartsWith unit.toList "sec".toList || unit = "secs" then
    value
  else 0

/-- `extractDuration` (timer utilities): sum the seconds of every
`TIME_REGEX` match in the text, taking the upper bound of ranges. -/
def extractDuration (text : String) : Nat :=
  let found := scanTimes (text.toList.length + 1) text.toList
  found.foldl (fun acc m => acc + timeUnitSeconds m.2 (timeMatchValue m.1)) 0

/-- A pending `setTimeout(…, 0)` macrotask of the UI coordinator: drain
one entry of the update queue or of the render queue. -/
inductive UiTask
  | drainUpdate
  | drainRender
deriving DecidableEq

/-- An observable action of the UI coordinator: one full update pass
(`display.updateDisplay` + `controls.updatePlayPauseButton`) or one full
render pass (`_renderTimerInternal`) for a timer id. -/
inductive UiObs
  | updatePass (id : Nat)
  | renderPass (id : Nat)
deriving DecidableEq

/-- State of the UI coordinator (timer-ui.js): the two ordered work
queues (ES `Map`s keyed by timer id), the two processing flags, the
in-flight `_processingTimers` set, the cached render references
(`timersMap`, id ↦ whether the cached element is still attached to
`document.body`), and the FIFO list of pending zero-delay tasks. -/
structure UiState where
  updateQueue : List (Nat × Timer)
  renderQueue : List (Nat × Timer)
  processingUpdate : Bool
  processingRender : Bool
  processingTimers : List Nat
  timersMap : List (Nat × Bool)
  tasks : List UiTask
deriving DecidableEq

/-- `_queueRender`: an id in the in-flight set is refused; otherwise
record the (latest) snapshot under its id and schedule a drain task. -/
def UiState.queueRender (s : UiState) (t : Timer) : UiState :=
  if t.id ∈ s.processingTimers then s
  else { s with renderQueue := insertA s.renderQueue t.id t,
                tasks := s.tasks ++ [.drainRender] }

/-- `_queueUpdate`: an id in the in-flight set is refused; otherwise
record the (latest) snapshot under its id and schedule a drain task. -/
def UiState.queueUpdate (s : UiState) (t : Timer) : UiState :=
  if t.id ∈ s.processingTimers then s
  else { s with updateQueue := insertA s.updateQueue t.id t,
                tasks := s.tasks ++ [.drainUpdate] }

/-- The shared tail of `_processUpdateQueue`'s `finally` block: clear the
processing flag (kept `false` at task boundaries), drop the drained id
from the in-flight set, and schedule another drain when work remains. -/
def UiState.finallyUpdate (s : UiState) (id : Nat) : UiState :=
  let s1 := { s with processingUpdate := false,
                     processingTimers := s.processingTimers.erase id }
  if s1.updateQueue.isEmpty then s1
  else { s1 with tasks := s1.tasks ++ [.drainUpdate] }

/-- `_processUpdateQueue`, run as its own macrotask: take the first
queued entry; refuse it if its id is in flight; redirect to the render
queue when the timer has no cached element or its element left the DOM;
otherwise perform exactly one update pass. -/
def UiState.processUpdateQueue (s : UiState) : UiState × List UiObs :=
  if s.processingUpdate then (s, [])
  else
    match s.updateQueue with
    | [] => (s, [])
    | (id, timer) :: rest =>
        let s1 := { s with processingUpdate := true, updateQueue := rest }
        if id ∈ s1.processingTimers then (s1.finallyUpdate id, [])
        else
          let s2 := { s1 with processingTimers := s1.processingTimers ++ [id] }
          match lookupA s2.timersMap id with
          | none =>
              let s3 := { s2 with processingTimers := s2.processingTimers.erase id }
              ((s3.queueRender timer).finallyUpdate id, [])
          | some inDom =>
              if inDom then (s2.finallyUpdate id, [.updatePass id])
              else
                let s3 := { s2 with
                  timersMap := eraseA s2.timersMap id,
                  processingTimers := s2.processingTimers.erase id }
                ((s3.queueRender timer).finallyUpdate id, [])

/-- The `finally` block of `_processRenderQueue`. -/
def UiState.finallyRender (s : UiState) (id : Nat) : UiState :=
  let s1 := { s with processingRender := false,
                     processingTimers := s.processingTimers.erase id }
  if s1.renderQueue.isEmpty then s1
  else { s1 with tasks := s1.tasks ++ [.drainRender] }

/-- `_processRenderQueue`, run as its own macrotask: take the first
queued entry; refuse an in-flight id; otherwise perform one render pass
(`_renderTimerInternal`), which materializes the element and caches its
references. -/
def UiState.processRenderQueue (s : UiState) : UiState × List UiObs :=
  if s.processingRender then (s, [])
  else
    match s.renderQueue with
    | [] => (s, [])
    | (id, _) :: rest =>
        let s1 := { s with processingRender := true, renderQueue := rest }
        if id ∈ s1.processingTimers then (s1.finallyRender id, [])
        else
          let s2 := { s1 with processingTimers := s1.processingTimers ++ [id],
                              timersMap := insertA s1.timersMap id true }
          (s2.finallyRender id, [.renderPass id])

/-- An external stimulus to the coordinator: a bus event whose handler
runs synchronously (`timer:tick` calling `updateTimer`), or the event
loop running the oldest pending zero-delay task. -/
inductive UiInput
  | tickEvent (t : Timer)
  | runTask
deriving DecidableEq

/-- One atomic scheduling turn of the single-threaded event loop. -/
def UiState.step (s : UiState) : UiInput → UiState × List UiObs
  | .tickEvent t => (s.queueUpdate t, [])
  | .runTask =>
      match s.tasks with
      | [] => (s, [])
      | task :: rest =>
          let s0 := { s with tasks := rest }
          match task with
          | .drainUpdate => s0.processUpdateQueue
          | .drainRender => s0.processRenderQueue

/-- Run a sequence of scheduling turns, collecting the observations of
each turn separately. -/
def UiState.run (s : UiState) : List UiInput → List (List UiObs)
  | [] => []
  | input :: rest =>
      let r := s.step input
      r.2 :: r.1.run rest

/-- Concrete state: a running timer one second away from completion. -/
def exampleRunningTimer : Timer :=
  { Timer.new 1 "Boil egg" 60 TimerMetadata.empty with
      remaining := 1, status := .running, runningFlag := true,
      intervalActive := true }

/-- Registry owning `exampleRunningTimer`, with its 1 Hz interval. -/
def exampleRunningCore : CoreState :=
  { timers := [(1, exampleRunningTimer)], intervals := [1], nextId := 2,
    storage := [] }

/-- The empty registry. -/
def emptyCore : CoreState :=
  { timers := [], intervals := [], nextId := 1, storage := [] }

/-- The empty module facade. -/
def emptyModule : ModuleState :=
  { core := emptyCore, stepTimers := [] }

/-- A step-tagged creation payload used to exercise the dedup path. -/
def exampleStepData : TimerData :=
  { name := some "Simmer sauce", duration := some 900, autoStart := false,
    metadata := { stepId := some 3, source := some "main",
                  bulletIndex := none, matchIndex := some 14 } }

/-- A registry run that leaves a `running` status in the persisted
snapshot: create a timer, start it (start does not persist), then create
a second timer, whose creation persists the whole registry — including
the first timer with status `running`. -/
def exampleRunningStorage : CoreState :=
  let r1 := emptyCore.handleCreateRequest
    { name := some "A", duration := some 60, autoStart := false,
      metadata := TimerMetadata.empty }
  let s2 := (r1.1.startTimer r1.2).1
  (s2.handleCreateRequest
    { name := some "B", duration := some 30, autoStart := false,
      metadata := TimerMetadata.empty }).1

/-- A completed timer as the registry stores it (remaining 0). -/
def exampleCompletedTimer : Timer :=
  { Timer.new 5 "Rest dough" 60 TimerMetadata.empty with
      remaining := 0, status := .completed, completion := 100 }

/-- A persisted idle timer whose storage snapshot is in sync. -/
def exampleSyncedCore : CoreState :=
  CoreState.persistTimers
    { timers := [(4, Timer.new 4 "Chill" 300 TimerMetadata.empty)],
      intervals := [], nextId := 5, storage := [] }

/-- The "Pasta boil timer" registry of the spec's example. -/
def examplePastaCore : CoreState :=
  { timers := [(7, Timer.new 7 "Pasta boil timer" 600 TimerMetadata.empty)],
    intervals := [], nextId := 8, storage := [] }

/-- Stored names "spot" and "pot", exposing the resolver's strategy
order on the query "pot timer". -/
def exampleSpotPotTimers : List (Nat × Timer) :=
  [(1, Timer.new 1 "spot" 60 TimerMetadata.empty),
   (2, Timer.new 2 "pot" 60 TimerMetadata.empty)]

/-- A UI coordinator state with one rendered, attached timer element. -/
def exampleUiState : UiState :=
  { updateQueue := []
    renderQueue := []
    processingUpdate := false
    processingRender := false
    processingTimers := []
    timersMap := [(1, true)]
    tasks := [] }

/-- Snapshot payload for the rendered timer of `exampleUiState`. -/
def exampleUiTimer : Timer :=
  Timer.new 1 "Boil" 60 TimerMetadata.empty

/-- Strategy 1 of the name resolver: exact case-insensitive match (the
query argument is already normalized). -/
def resolveExact (timers : List (Nat × Timer)) (q : String) : Option Nat :=
  (timers.find? fun p => strToLower p.2.name = q).map Prod.fst

/-- Strategy 2 of the name resolver: exact match against the query with
`" timer"` appended when absent — a query already ending in `" timer"`
is retried verbatim, never with the qualifier removed. -/
def resolveWithSuffix (timers : List (Nat × Timer)) (q : String) : Option Nat :=
  let nameWithSuffix := if jsEndsWith q " timer" then q else q ++ " timer"
  (timers.find? fun p => strToLower p.2.name = nameWithSuffix).map Prod.fst

/-- Strategy 3 of the name resolver: first query token of length at
least 3 (no stop-word list) contained in a stored name. -/
def resolveKeyword (timers : List (Nat × Timer)) (q : String) : Option Nat :=
  (splitWsTokens q).findSome? fun word =>
    if word.length < 3 then none
    else (timers.find? fun p => jsIncludes (strToLower p.2.name) word).map Prod.fst

/-- Strategy 4 of the name resolver: bidirectional substring containment. -/
def resolveContains (timers : List (Nat × Timer)) (q : String) : Option Nat :=
  (timers.find? fun p =>
    jsIncludes (strToLower p.2.name) q || jsIncludes q (strToLower p.2.name)).map Prod.fst

/-- Entity states reachable through the `Timer` state machine's own
operations (constructor, start, pause, reset, the tick decrement, the
completion field mutations, rename, metadata merge). -/
inductive EntityReachable : Timer → Prop
  | new (id : Nat) (name : String) (duration : Int) (md : TimerMetadata) :
      EntityReachable (Timer.new id name duration md)
  | start {t : Timer} : EntityReachable t → EntityReachable t.start
  | pause {t : Timer} : EntityReachable t → EntityReachable t.pause
  | reset {t : Timer} : EntityReachable t → EntityReachable t.reset
  | completeFields {t : Timer} : EntityReachable t →
      EntityReachable t.completeFields
  | tickFields {t : Timer} : EntityReachable t →
      EntityReachable { t with
        remaining := t.remaining - 1
        completion := ((t.duration - (t.remaining - 1) : ℚ) / (t.duration : ℚ)) * 100 }
  | renameOp {t : Timer} (n : String) : EntityReachable t →
      EntityReachable (t.rename n)
  | addMeta {t : Timer} (m : TimerMetadata) : EntityReachable t →
      EntityReachable (t.addMetadata m)

/-- The durable snapshot agrees with the serialized registry. -/
def Synced (s : CoreState) : Prop :=
  s.storage = s.timers.map fun p => serializeTimer p.2

/-! Association-list and persistence lemmas. -/

theorem lookupA_insertA_self {α : Type} (l : List (Nat × α)) (k : Nat) (v : α) :
    lookupA (insertA l k v) k = some v := by
  induction l with
  | nil => simp [insertA, lookupA]
  | cons p rest ih =>
      by_cases h : p.1 = k
      · simp [insertA, h, lookupA]
      · simp [insertA, h, lookupA, ih]

theorem insertA_lookup_eq {α : Type} {l : List (Nat × α)} {k : Nat} {v : α}
    (h : lookupA l k = some v) : insertA l k v = l := by
  induction l with
  | nil => simp [lookupA] at h
  | cons p rest ih =>
      obtain ⟨pk, pv⟩ := p
      by_cases hk : pk = k
      · subst hk
        simp [lookupA] at h
        subst h
        simp [insertA]
      · simp only [lookupA, if_neg hk] at h
        simp [insertA, hk, ih h]

theorem insertA_of_not_mem {α : Type} {l : List (Nat × α)} {k : Nat} (v : α)
    (h : k ∉ l.map Prod.fst) : insertA l k v = l ++ [(k, v)] := by
  induction l with
  | nil => simp [insertA]
  | cons p rest ih =>
      simp only [List.map_cons, List.mem_cons] at h
      push_neg at h
      simp [insertA, Ne.symm h.1, ih h.2]

theorem length_insertA_of_not_mem {α : Type} {l : List (Nat × α)} {k : Nat}
    (v : α) (h : k ∉ l.map Prod.fst) :
    (insertA l k v).length = l.length + 1 := by
  rw [insertA_of_not_mem v h]
  simp

theorem lookupS_insertS_self {α : Type} (l : List (String × α)) (k : String)
    (v : α) : lookupS (insertS l k v) k = some v := by
  induction l with
  | nil => simp [insertS, lookupS]
  | cons p rest ih =>
      by_cases h : p.1 = k
      · simp [insertS, h, lookupS]
      · simp [insertS, h, lookupS, ih]

theorem persistTimers_timers (s : CoreState) :
    s.persistTimers.timers = s.timers := by
  unfold CoreState.persistTimers CoreState.saveTimersToStorage
  split
  · next h => simp [List.isEmpty_iff.mp h]
  · rfl

theorem persistTimers_nextId (s : CoreState) :
    s.persistTimers.nextId = s.nextId := by
  unfold CoreState.persistTimers CoreState.saveTimersToStorage
  split <;> rfl

theorem persistTimers_intervals (s : CoreState) :
    s.persistTimers.intervals = s.intervals := by
  unfold CoreState.persistTimers CoreState.saveTimersToStorage
  split <;> rfl

/-- `persistTimers` always leaves the durable record equal to the
serialized registry (the empty registry writes the empty snapshot). -/
theorem persistTimers_synced (s : CoreState) :
    s.persistTimers.storage =
      s.persistTimers.timers.map (fun p => serializeTimer p.2) := by
  unfold CoreState.persistTimers CoreState.saveTimersToStorage
  split
  · next h => simp [List.isEmpty_iff.mp h]
  · rfl

/-- The completion field mutations are idempotent. -/
theorem completeFields_idem (t : Timer) :
    t.completeFields.completeFields = t.completeFields := by
  unfold Timer.completeFields Timer.pause
  by_cases h : t.runningFlag <;> simp [h]

/-- Once the entity stored under `id` is a fixpoint of the completion
mutations, the `completeTimer` recursion never changes it again. -/
theorem completeTimer_lookup_fix (fuel : Nat) (id : Nat) (s : CoreState)
    (u : Timer) (h : lookupA s.timers id = some u)
    (hu : u.completeFields = u) :
    lookupA ((CoreState.completeTimer fuel id s).1).timers id = some u := by
  induction fuel generalizing s with
  | zero => simpa [CoreState.completeTimer] using h
  | succ n ih =>
      unfold CoreState.completeTimer
      rw [h]
      simp only
      have hins : insertA s.timers id u.completeFields = s.timers := by
        rw [hu]; exact insertA_lookup_eq h
      have hrec := ih { s with timers := insertA s.timers id u.completeFields }
        (by simpa [hins] using h)
      split
      · exact hrec
      · rw [persistTimers_timers]
        exact hrec

/-- Event count of the `completeTimer` recursion at a fixpoint entity:
with `fuel` stack frames available, `fuel - 1` separate
`timer:completed` events are published (the deepest frame overflows and
is caught; every other frame publishes one). -/
theorem completeTimer_events (fuel : Nat) (id : Nat) (s : CoreState)
    (u : Timer) (h : lookupA s.timers id = some u)
    (hu : u.completeFields = u) :
    (CoreState.completeTimer fuel id s).2.1 = fuel - 1 ∧
      (CoreState.completeTimer fuel id s).2.2 = decide (fuel = 0) := by
  induction fuel generalizing s with
  | zero => simp [CoreState.completeTimer]
  | succ n ih =>
      unfold CoreState.completeTimer
      rw [h]
      simp only
      have hins : insertA s.timers id u.completeFields = s.timers := by
        rw [hu]; exact insertA_lookup_eq h
      have hrec := ih { s with timers := insertA s.timers id u.completeFields }
        (by simpa [hins] using h)
      rcases hrec with ⟨hcount, hthrew⟩
      split
      · next hthrow =>
          rw [hthrew] at hthrow
          have hn : n = 0 := by simpa using hthrow
          subst hn
          simpa using hcount
      · next hthrow =>
          rw [hthrew] at hthrow
          have hn : n ≠ 0 := by simpa using hthrow
          simp [hcount, Nat.succ_sub_one]
          omega

theorem map_fst_insertA_of_not_mem {α : Type} {l : List (Nat × α)} {k : Nat}
    (v : α) (h : k ∉ l.map Prod.fst) :
    (insertA l k v).map Prod.fst = l.map Prod.fst ++ [k] := by
  rw [insertA_of_not_mem v h]
  simp

/-- The response published by `handleCreateRequest` carries the freshly
minted id. -/
theorem handleCreateRequest_snd (s : CoreState) (td : TimerData) :
    (s.handleCreateRequest td).2 = s.nextId := by
  simp [CoreState.handleCreateRequest, CoreState.createTimer]

theorem handleCreateRequest_timers (s : CoreState) (td : TimerData) :
    (s.handleCreateRequest td).1.timers =
      insertA s.timers s.nextId
        (Timer.new s.nextId (jsOrStr td.name "Timer")
          (jsOrInt td.duration 60) td.metadata) := by
  simp [CoreState.handleCreateRequest, CoreState.createTimer,
    persistTimers_timers]

theorem handleCreateRequest_nextId (s : CoreState) (td : TimerData) :
    (s.handleCreateRequest td).1.nextId = s.nextId + 1 := by
  simp [CoreState.handleCreateRequest, CoreState.createTimer,
    persistTimers_nextId]

/-- Completing a timer whose `remaining` is about to reach 0 on a tick:
with `fuel` stack frames available, the mutual recursion between
`Timer.complete` and `completeTimer` publishes `fuel - 1` separate
`timer:completed` events before the stack is exhausted. -/
theorem entityTick_completes_events (fuel id : Nat) (s : CoreState)
    (t : Timer) (h : lookupA s.timers id = some t) (hr : t.remaining ≤ 1) :
    ((s.entityTick fuel id).2.1 = fuel - 1) := by
  unfold CoreState.entityTick
  rw [h]
  simp only
  rw [if_pos (by omega : t.remaining - 1 ≤ (0 : Int))]
  unfold CoreState.entityComplete
  rw [lookupA_insertA_self]
  simp only
  exact (completeTimer_events fuel id _ _ (lookupA_insertA_self _ _ _)
    (completeFields_idem _)).1

/-- C9: `extractDuration "simmer for 10-15 minutes"` is 900 seconds —
the range `10-15` with a minutes unit contributes its upper bound
converted to seconds (15 · 60). -/
theorem claim9_extract_duration_range :
    extractDuration "simmer for 10-15 minutes" = 900 := by decide

/-- C2 (code bug): when `remaining` reaches 0 while running, the entity
does transition to `completed` with `remaining = 0` and its tick
cancelled, but `Timer.complete` invokes the registry's `onComplete`
callback, which is `completeTimer` itself, which calls
`Timer.complete` again — an unbounded mutual recursion. Each registry
frame whose recursive call did not throw publishes its own
`timer:completed`, so a call-stack budget of `fuel` frames publishes
`fuel - 1` events (e.g. 11 events with 12 frames), never exactly one. -/
theorem claim2_completion_event_recursion :
    (∀ fuel : Nat,
      (exampleRunningCore.entityTick fuel 1).2.1 = fuel - 1) ∧
    (exampleRunningCore.entityTick 12 1).2.1 = 11 ∧
    (exampleRunningCore.entityTick 12 1).2.1 ≠ 1 ∧
    (lookupA ((exampleRunningCore.entityTick 12 1).1).timers 1).map
        (fun t => (t.status, t.intervalActive, t.remaining)) =
      some (.completed, false, 0) := by
  refine ⟨fun fuel => ?_, by decide, by decide, by decide⟩
  exact entityTick_completes_events fuel 1 exampleRunningCore
    exampleRunningTimer (by decide) (by decide)

/-- C4 counterexample: a completed timer is persisted with
`remainingTime = 0`; because `loadTimers` reconstructs `remaining` as
`remainingTime || duration`, the reload maps the stored 0 back to the
full duration 60 — the set of remaining values is not reproduced. -/
theorem claim4_counterexample :
    exampleCompletedTimer.remaining = 0 ∧
    (serializeTimer exampleCompletedTimer).remainingTime = 0 ∧
    (lookupA (loadTimers [serializeTimer exampleCompletedTimer]) 5).map
        (fun t => t.remaining) = some 60 := by decide

/-- C6 counterexample: `startTimer` mutates the entity's status but
never calls `persistTimers`, so afterwards the durable snapshot no
longer matches the registry (it still shows the pre-start state). -/
theorem claim6_counterexample :
    (exampleSyncedCore.startTimer 4).2 = true ∧
    exampleSyncedCore.storage =
      exampleSyncedCore.timers.map (fun p => serializeTimer p.2) ∧
    ((exampleSyncedCore.startTimer 4).1).storage ≠
      ((exampleSyncedCore.startTimer 4).1).timers.map
        (fun p => serializeTimer p.2) := by decide

/-- C7 counterexample: a registry run (create, start — which does not
persist —, create again — which persists everything) leaves a snapshot
whose first timer has status `running`; reloading it yields an entity
with `status = running` but no active tick interval, violating the
claimed equivalence for loaded states. -/
theorem claim7_counterexample :
    (lookupA (loadTimers exampleRunningStorage.storage) 1).map
        (fun t => (t.status, t.intervalActive, t.runningFlag)) =
      some (.running, false, false) := by decide

/-- C8 counterexample: with stored names "spot" (id 1) and "pot"
(id 2), the query "pot timer" is exactly the name of timer 2 with the
trailing qualifier `" timer"` appended, and neither the exact pass nor
the appended-suffix pass matches anything — so a resolver whose second
strategy also tried the qualifier-removed form would return id 2; the
code instead falls through to keyword containment, where the token
"pot" first hits "spot", returning id 1. -/
theorem claim8_counterexample :
    resolveExact exampleSpotPotTimers "pot timer" = none ∧
    resolveWithSuffix exampleSpotPotTimers "pot timer" = none ∧
    (lookupA exampleSpotPotTimers 2).map (fun t => strToLower t.name ++ " timer") =
      some "pot timer" ∧
    findTimerIdByName exampleSpotPotTimers "pot timer" = some 1 := by decide

/-- C1 (code bug): two facade `createTimer` requests carrying the same
defined `stepId` and identical duplicate-signature fields do store
exactly one entity — the second is suppressed, leaving both the
registry and the signature map untouched — and the registry's
synchronous `timer:created:response` to the first request does carry
the fresh id. But the first caller's promise never receives it: the
facade subscribes its response listener only after the synchronous
publish chain has already emitted the response, so the promise times
out and resolves `null`, exactly like the suppressed second call. -/
theorem claim1_dedup_single_store
    (m : ModuleState) (td1 td2 : TimerData) (sid : Int)
    (h1 : td1.metadata.stepId = some sid)
    (h2 : td2.metadata.stepId = some sid)
    (hsig : createTimerSignature td1 = createTimerSignature td2)
    (hnew : createTimerSignature td1 ∉
      (lookupS m.stepTimers ("step-" ++ toString sid)).getD [])
    (hfresh : m.core.nextId ∉ m.core.timers.map Prod.fst) :
    (m.core.handleCreateRequest td1).2 = m.core.nextId ∧
    (m.createTimer td1).1.core = (m.core.handleCreateRequest td1).1 ∧
    (m.createTimer td1).2 = none ∧
    ((m.createTimer td1).1.createTimer td2).2 = none ∧
    ((m.createTimer td1).1.createTimer td2).1 = (m.createTimer td1).1 ∧
    ((m.createTimer td1).1.createTimer td2).1.core.timers.length =
      m.core.timers.length + 1 := by
  have hfirst : m.createTimer td1 =
      ({ m with
          stepTimers := insertS m.stepTimers ("step-" ++ toString sid)
            (((lookupS m.stepTimers ("step-" ++ toString sid)).getD []) ++
              [createTimerSignature td1])
          core := (m.core.handleCreateRequest td1).1 },
        none) := by
    unfold ModuleState.createTimer
    rw [h1]
    simp only [if_neg hnew]
  have hlook : lookupS ((m.createTimer td1).1).stepTimers
      ("step-" ++ toString sid) =
      some (((lookupS m.stepTimers ("step-" ++ toString sid)).getD []) ++
        [createTimerSignature td1]) := by
    rw [hfirst]
    exact lookupS_insertS_self _ _ _
  have hmem : createTimerSignature td2 ∈
      ((lookupS ((m.createTimer td1).1).stepTimers
        ("step-" ++ toString sid)).getD []) := by
    rw [hlook, ← hsig]
    simp
  have hsup : ∀ m2 : ModuleState, createTimerSignature td2 ∈
      ((lookupS m2.stepTimers ("step-" ++ toString sid)).getD []) →
      m2.createTimer td2 = (m2, none) := by
    intro m2 hm
    unfold ModuleState.createTimer
    rw [h2]
    simp only [if_pos hm]
  have hsecond : (m.createTimer td1).1.createTimer td2 =
      ((m.createTimer td1).1, none) := hsup _ hmem
  refine ⟨handleCreateRequest_snd m.core td1, ?_, ?_, ?_, ?_, ?_⟩
  · rw [hfirst]
  · rw [hfirst]
  · rw [hsecond]
  · rw [hsecond]
  · rw [hsecond, hfirst]
    simp only [handleCreateRequest_timers]
    exact length_insertA_of_not_mem _ hfresh

/-- Witness for C1 at the empty module state and the step-3 payload:
the registry responds with id 1 and stores one entity, yet both
promises resolve `null`. -/
theorem claim1_dedup_single_store_witness :
    (emptyModule.core.handleCreateRequest exampleStepData).2 = 1 ∧
    (emptyModule.createTimer exampleStepData).2 = none ∧
    ((emptyModule.createTimer exampleStepData).1.createTimer
      exampleStepData).2 = none ∧
    ((emptyModule.createTimer exampleStepData).1.createTimer
      exampleStepData).1.core.timers.length = 1 := by
  have h := claim1_dedup_single_store emptyModule exampleStepData
    exampleStepData 3 (by decide) (by decide) rfl (by decide) (by decide)
  exact ⟨h.1, h.2.2.1, h.2.2.2.1, h.2.2.2.2.2⟩

/-- C10: the duplicate-signature guard lives only in the module facade
and only when `metadata.stepId` is defined. The registry's
`timer:request:create` handler creates unconditionally: any payload —
even one whose signature coincides with an already stored timer — gets
a fresh id and a new entry, and two identical back-to-back requests on
the bus store two entities under distinct ids. When `stepId` is
undefined, even the facade path never suppresses: the request reaches
the same unconditional registry handler and the entity is stored (the
caller's promise still times out to `null` — the missed-response bug of
C1 — but no suppression takes place). -/
theorem claim10_bus_create_unconditional
    (s : CoreState) (td : TimerData)
    (hfresh : ∀ k ∈ s.timers.map Prod.fst, k < s.nextId) :
    (s.handleCreateRequest td).2 = s.nextId ∧
    lookupA (s.handleCreateRequest td).1.timers s.nextId =
      some (Timer.new s.nextId (jsOrStr td.name "Timer")
        (jsOrInt td.duration 60) td.metadata) ∧
    (s.handleCreateRequest td).1.timers.length = s.timers.length + 1 ∧
    ((s.handleCreateRequest td).1.handleCreateRequest td).2 = s.nextId + 1 ∧
    ((s.handleCreateRequest td).1.handleCreateRequest td).1.timers.length =
      s.timers.length + 2 ∧
    (∀ mm : ModuleState, td.metadata.stepId = none →
      (mm.createTimer td).1.core = (mm.core.handleCreateRequest td).1) := by
  have hnot : s.nextId ∉ s.timers.map Prod.fst := by
    intro hmem
    exact absurd rfl (Nat.ne_of_lt (hfresh _ hmem)).symm
  have hkeys : (s.handleCreateRequest td).1.timers.map Prod.fst =
      s.timers.map Prod.fst ++ [s.nextId] := by
    rw [handleCreateRequest_timers]
    exact map_fst_insertA_of_not_mem _ hnot
  have hnot2 : (s.handleCreateRequest td).1.nextId ∉
      (s.handleCreateRequest td).1.timers.map Prod.fst := by
    rw [hkeys, handleCreateRequest_nextId]
    intro hmem
    rcases List.mem_append.mp hmem with hmem | hmem
    · exact absurd rfl (Nat.ne_of_lt (Nat.lt_succ_of_lt (hfresh _ hmem))).symm
    · simp at hmem
  refine ⟨handleCreateRequest_snd s td, ?_, ?_, ?_, ?_, ?_⟩
  · rw [handleCreateRequest_timers]
    exact lookupA_insertA_self _ _ _
  · rw [handleCreateRequest_timers]
    exact length_insertA_of_not_mem _ hnot
  · rw [handleCreateRequest_snd, handleCreateRequest_nextId]
  · rw [handleCreateRequest_timers ((s.handleCreateRequest td).1) td,
      length_insertA_of_not_mem _ hnot2, handleCreateRequest_timers,
      length_insertA_of_not_mem _ hnot]
  · intro mm hnone
    unfold ModuleState.createTimer
    rw [hnone]

/-- Witness for C10: the empty registry and the step-tagged payload —
both bus-path requests create, despite identical signatures. -/
theorem claim10_bus_create_unconditional_witness :
    (emptyCore.handleCreateRequest exampleStepData).2 = 1 ∧
    ((emptyCore.handleCreateRequest exampleStepData).1.handleCreateRequest
      exampleStepData).1.timers.length = 2 := by
  have h := claim10_bus_create_unconditional emptyCore exampleStepData
    (by decide)
  exact ⟨h.1, h.2.2.2.2.1⟩

/-- The `completeTimer` recursion only ever rewrites the entity under
`id` to its completion fixpoint, so a zero `remaining` stays zero and
the duration never changes. -/
theorem entityTick_lookup_complete (fuel id : Nat) (s : CoreState)
    (t : Timer) (h : lookupA s.timers id = some t) :
    (t.remaining - 1 ≤ 0 →
      lookupA ((s.entityTick fuel id).1).timers id =
        some ({ t with
          remaining := t.remaining - 1
          completion := ((t.duration - (t.remaining - 1) : ℚ) / (t.duration : ℚ)) * 100
          }.completeFields)) ∧
    (0 < t.remaining - 1 →
      lookupA ((s.entityTick fuel id).1).timers id =
        some { t with
          remaining := t.remaining - 1
          completion := ((t.duration - (t.remaining - 1) : ℚ) / (t.duration : ℚ)) * 100 }) := by
  constructor
  · intro hle
    unfold CoreState.entityTick
    rw [h]
    simp only
    rw [if_pos hle]
    unfold CoreState.entityComplete
    rw [lookupA_insertA_self]
    simp only
    exact completeTimer_lookup_fix fuel id _ _ (lookupA_insertA_self _ _ _)
      (completeFields_idem _)
  · intro hgt
    unfold CoreState.entityTick
    rw [h]
    simp only
    rw [if_neg (by omega)]
    exact lookupA_insertA_self _ _ _

/-- C3: for a timer of positive duration satisfying
`0 ≤ remaining ≤ duration`, the bound is preserved by `start`, `pause`,
`reset`, and by the tick-interval body (including the completion path it
may trigger, which pins `remaining` to 0). -/
theorem claim3_remaining_bounds (t : Timer)
    (hd : 0 < t.duration) (h0 : 0 ≤ t.remaining)
    (h1 : t.remaining ≤ t.duration) :
    (0 ≤ t.start.remaining ∧ t.start.remaining ≤ t.start.duration) ∧
    (0 ≤ t.pause.remaining ∧ t.pause.remaining ≤ t.pause.duration) ∧
    (0 ≤ t.reset.remaining ∧ t.reset.remaining ≤ t.reset.duration) ∧
    (∀ (fuel id : Nat) (s : CoreState), lookupA s.timers id = some t →
      ∀ t', lookupA ((s.entityTick fuel id).1).timers id = some t' →
        0 ≤ t'.remaining ∧ t'.remaining ≤ t.duration) := by
  refine ⟨?_, ?_, ?_, ?_⟩
  · unfold Timer.start
    split <;> exact ⟨h0, h1⟩
  · unfold Timer.pause
    split <;> exact ⟨h0, h1⟩
  · unfold Timer.reset Timer.pause
    split <;> exact ⟨le_of_lt hd, le_refl _⟩
  · intro fuel id s h t' ht'
    rcases le_or_lt (t.remaining - 1) 0 with hle | hgt
    · rw [(entityTick_lookup_complete fuel id s t h).1 hle] at ht'
      cases ht'
      unfold Timer.completeFields Timer.pause
      split <;> simp <;> exact le_of_lt hd
    · rw [(entityTick_lookup_complete fuel id s t h).2 hgt] at ht'
      cases ht'
      constructor
      · simp only
        omega
      · simp only
        omega

/-- Witness for C3 at a concrete timer with duration 60 and
remaining 1, in a concrete registry. -/
theorem claim3_remaining_bounds_witness :
    (0 ≤ exampleRunningTimer.start.remaining ∧
      exampleRunningTimer.start.remaining ≤
        exampleRunningTimer.start.duration) ∧
    ∀ t', lookupA ((exampleRunningCore.entityTick 5 1).1).timers 1 = some t' →
      0 ≤ t'.remaining ∧ t'.remaining ≤ exampleRunningTimer.duration := by
  have h := claim3_remaining_bounds exampleRunningTimer (by decide)
    (by decide) (by decide)
  exact ⟨h.1, h.2.2.2 5 1 exampleRunningCore (by decide)⟩

/-- A `completeTimer` call with at least two stack frames available
finishes with the outermost frame persisting the registry. -/
theorem completeTimer_synced (fuel id : Nat) (s : CoreState) (u : Timer)
    (h2 : 2 ≤ fuel) (h : lookupA s.timers id = some u) :
    Synced ((CoreState.completeTimer fuel id s).1) := by
  obtain ⟨n, rfl⟩ : ∃ n, fuel = n + 1 := ⟨fuel - 1, by omega⟩
  unfold CoreState.completeTimer
  rw [h]
  simp only
  have hev := completeTimer_events n id
    { s with timers := insertA s.timers id u.completeFields }
    u.completeFields (lookupA_insertA_self _ _ _) (completeFields_idem u)
  rw [hev.2]
  rw [if_neg (by simp; omega)]
  exact persistTimers_synced _

/-- C6 (amended): `create`, `remove`, `rename`, `addMetadata`,
`complete` (with stack to spare) and clear-all leave the durable record
equal to the serialized registry — the empty registry writes the empty
snapshot — whereas `start`, `pause` and `reset` never touch storage. -/
theorem claim6_persistence_amended :
    (∀ (s : CoreState) (td : TimerData), Synced (s.handleCreateRequest td).1) ∧
    (∀ (s : CoreState) (id : Nat) (t : Timer), lookupA s.timers id = some t →
      Synced (s.removeTimer id).1) ∧
    (∀ (s : CoreState) (id : Nat) (t : Timer) (n : String),
      lookupA s.timers id = some t → Synced (s.renameTimer id n)) ∧
    (∀ (s : CoreState) (id : Nat) (t : Timer) (mm : TimerMetadata),
      lookupA s.timers id = some t → Synced (s.addMetadata id mm)) ∧
    (∀ (s : CoreState) (id : Nat) (t : Timer) (fuel : Nat), 2 ≤ fuel →
      lookupA s.timers id = some t →
      Synced (CoreState.completeTimer fuel id s).1) ∧
    (∀ s : CoreState, Synced s.clearAll ∧ s.clearAll.storage = []) ∧
    (∀ (s : CoreState) (id : Nat),
      (s.startTimer id).1.storage = s.storage ∧
      (s.pauseTimer id).1.storage = s.storage ∧
      (s.resetTimer id).1.storage = s.storage) := by
  refine ⟨?_, ?_, ?_, ?_, ?_, ?_, ?_⟩
  · intro s td
    unfold CoreState.handleCreateRequest
    exact persistTimers_synced _
  · intro s id t h
    unfold CoreState.removeTimer
    rw [h]
    exact persistTimers_synced _
  · intro s id t n h
    unfold CoreState.renameTimer
    rw [h]
    exact persistTimers_synced _
  · intro s id t mm h
    unfold CoreState.addMetadata
    rw [h]
    exact persistTimers_synced _
  · intro s id t fuel hf h
    exact completeTimer_synced fuel id s t hf h
  · intro s
    constructor
    · unfold CoreState.clearAll
      exact persistTimers_synced _
    · unfold CoreState.clearAll CoreState.persistTimers
      simp
  · intro s id
    refine ⟨?_, ?_, ?_⟩
    · unfold CoreState.startTimer
      rcases hl : lookupA s.timers id with _ | t
      · rfl
      · simp only
        split <;> rfl
    · unfold CoreState.pauseTimer
      rcases hl : lookupA s.timers id with _ | t <;> rfl
    · unfold CoreState.resetTimer
      rcases hl : lookupA s.timers id with _ | t <;> rfl

/-- Witness for C6 at the concrete synced one-timer registry. -/
theorem claim6_persistence_amended_witness :
    Synced (exampleSyncedCore.renameTimer 4 "Cool") ∧
    Synced (CoreState.completeTimer 4 4 exampleSyncedCore).1 ∧
    (exampleSyncedCore.startTimer 4).1.storage = exampleSyncedCore.storage := by
  refine ⟨?_, ?_, ?_⟩
  · exact claim6_persistence_amended.2.2.1 exampleSyncedCore 4
      (Timer.new 4 "Chill" 300 TimerMetadata.empty) "Cool" (by decide)
  · exact claim6_persistence_amended.2.2.2.2.1 exampleSyncedCore 4
      (Timer.new 4 "Chill" 300 TimerMetadata.empty) 4 (by omega) (by decide)
  · exact (claim6_persistence_amended.2.2.2.2.2.2 exampleSyncedCore 4).1

/-- Invariant of the entity state machine: both the live-interval flag
and `_isRunning` track `status = running` exactly. -/
theorem entity_invariant (t : Timer) (h : EntityReachable t) :
    (t.intervalActive = true ↔ t.status = .running) ∧
    (t.runningFlag = true ↔ t.status = .running) := by
  induction h with
  | new id name duration md => simp [Timer.new]
  | @start t h ih =>
      unfold Timer.start
      by_cases hf : t.runningFlag
      · simpa [hf] using ih
      · simp [hf]
  | @pause t h ih =>
      unfold Timer.pause
      by_cases hf : t.runningFlag
      · simp [hf]
      · simpa [hf] using ih
  | @reset t h ih =>
      unfold Timer.reset Timer.pause
      by_cases hf : t.runningFlag
      · simp [hf]
      · simp only [hf, Bool.not_false, if_true]
        constructor
        · rw [ih.1, ← ih.2]
          simp [hf]
        · simp [hf]
  | @completeFields t h ih =>
      unfold Timer.completeFields Timer.pause
      by_cases hf : t.runningFlag
      · simp [hf]
      · simp only [hf, Bool.not_false, if_true]
        constructor
        · rw [ih.1, ← ih.2]
          simp [hf]
        · simp [hf]
  | @tickFields t h ih => exact ih
  | @renameOp t n h ih => exact ih
  | @addMeta t m h ih => exact ih

/-- C7 (amended): the "interval exists iff running" equivalence holds
for every state reachable through the entity's own operations; a loaded
timer, however, never has an active interval (nor the running flag),
even though its recorded status may be `running` — the forward direction
(interval implies running) thus holds everywhere, but the reverse fails
for loaded running snapshots until an explicit restart. -/
theorem claim7_interval_iff_amended :
    (∀ t : Timer, EntityReachable t →
      (t.intervalActive = true ↔ t.status = .running)) ∧
    (∀ sd : SerializedTimer, (loadTimer sd).intervalActive = false ∧
      (loadTimer sd).runningFlag = false) := by
  constructor
  · intro t h
    exact (entity_invariant t h).1
  · intro sd
    exact ⟨rfl, rfl⟩

/-- Witness for C7 at a freshly constructed then started timer and at a
concrete stored snapshot. -/
theorem claim7_interval_iff_amended_witness :
    ((Timer.new 1 "Boil" 60 TimerMetadata.empty).start.intervalActive = true ↔
      (Timer.new 1 "Boil" 60 TimerMetadata.empty).start.status = .running) ∧
    (loadTimer (serializeTimer exampleRunningTimer)).intervalActive = false := by
  constructor
  · exact claim7_interval_iff_amended.1 _
      (EntityReachable.start (EntityReachable.new 1 "Boil" 60 TimerMetadata.empty))
  · exact (claim7_interval_iff_amended.2 (serializeTimer exampleRunningTimer)).1

/-- Unfolding the `loadTimers` fold when every stored id is fresh for
the accumulator and the stored ids are pairwise distinct. -/
theorem loadTimers_foldl_eq (sds : List SerializedTimer) :
    ∀ acc : List (Nat × Timer),
      (∀ sd ∈ sds, sd.id ∉ acc.map Prod.fst) →
      (sds.map SerializedTimer.id).Nodup →
      sds.foldl (fun acc sd => insertA acc sd.id (loadTimer sd)) acc =
        acc ++ sds.map fun sd => (sd.id, loadTimer sd) := by
  induction sds with
  | nil => intro acc _ _; simp
  | cons sd rest ih =>
      intro acc hfresh hnodup
      simp only [List.foldl_cons, List.map_cons]
      rw [insertA_of_not_mem _ (hfresh sd (List.mem_cons_self sd rest))]
      rw [ih (acc ++ [(sd.id, loadTimer sd)]) ?fresh ?nodup]
      · simp
      case fresh =>
        intro sd2 h2
        simp only [List.map_append, List.mem_append]
        push_neg
        constructor
        · exact hfresh sd2 (List.mem_cons_of_mem sd h2)
        · simp only [List.map_cons, List.nodup_cons] at hnodup
          intro hc
          have heq : sd2.id = sd.id := by simpa using hc
          exact hnodup.1 (heq ▸ List.mem_map_of_mem SerializedTimer.id h2)
      case nodup =>
        simp only [List.map_cons, List.nodup_cons] at hnodup
        exact hnodup.2

/-- C4 (amended): serializing every timer, clearing, and reloading
reproduces the ids, names, durations, statuses — and the remaining
values whenever they are non-zero — with no reloaded timer running or
owning a tick interval (a `running` status reloads at its last
remaining without ticking). A timer stored with `remaining = 0` (a
completed one) is the exception: `remainingTime || duration` maps it
back to the full duration. -/
theorem claim4_roundtrip_amended (timers : List (Nat × Timer))
    (hids : ∀ p ∈ timers, p.1 = p.2.id)
    (hnodup : (timers.map Prod.fst).Nodup)
    (hrem : ∀ p ∈ timers, p.2.remaining ≠ 0) :
    loadTimers (timers.map fun p => serializeTimer p.2) =
      timers.map (fun p => (p.1, loadTimer (serializeTimer p.2))) ∧
    ∀ p ∈ timers,
      (loadTimer (serializeTimer p.2)).id = p.2.id ∧
      (loadTimer (serializeTimer p.2)).name = p.2.name ∧
      (loadTimer (serializeTimer p.2)).duration = p.2.duration ∧
      (loadTimer (serializeTimer p.2)).remaining = p.2.remaining ∧
      (loadTimer (serializeTimer p.2)).status = p.2.status ∧
      (loadTimer (serializeTimer p.2)).intervalActive = false ∧
      (loadTimer (serializeTimer p.2)).runningFlag = false := by
  have hidmap : ((timers.map fun p => serializeTimer p.2).map
      SerializedTimer.id) = timers.map Prod.fst := by
    rw [List.map_map]
    refine List.map_congr_left ?_
    intro p hp
    exact (hids p hp).symm
  constructor
  · unfold loadTimers
    rw [loadTimers_foldl_eq _ [] (by simp) (by rw [hidmap]; exact hnodup)]
    rw [List.nil_append, List.map_map]
    refine List.map_congr_left ?_
    intro p hp
    simp only [Function.comp]
    rw [show (serializeTimer p.2).id = p.1 from (hids p hp).symm]
  · intro p hp
    refine ⟨rfl, rfl, rfl, ?_, rfl, rfl, rfl⟩
    unfold loadTimer serializeTimer
    simp only
    rw [if_neg (hrem p hp)]

/-- Witness for C4 at a one-timer registry with remaining 5. -/
theorem claim4_roundtrip_amended_witness :
    loadTimers [serializeTimer (Timer.new 9 "Sear steak" 5 TimerMetadata.empty)] =
      [(9, loadTimer (serializeTimer (Timer.new 9 "Sear steak" 5 TimerMetadata.empty)))] ∧
    (loadTimer (serializeTimer (Timer.new 9 "Sear steak" 5
      TimerMetadata.empty))).remaining = 5 := by
  have h := claim4_roundtrip_amended
    [(9, Timer.new 9 "Sear steak" 5 TimerMetadata.empty)]
    (by decide) (by decide) (by decide)
  refine ⟨?_, ?_⟩
  · simpa using h.1
  · exact (h.2 _ (List.mem_singleton.mpr rfl)).2.2.2.1

/-- One update-drain macrotask performs at most one update pass. -/
theorem processUpdateQueue_obs_len (s : UiState) :
    (s.processUpdateQueue.2).length ≤ 1 := by
  unfold UiState.processUpdateQueue
  split
  · simp
  · split
    · simp
    · dsimp only
      split
      · simp
      · split
        · simp
        · split <;> simp

/-- One render-drain macrotask performs at most one render pass. -/
theorem processRenderQueue_obs_len (s : UiState) :
    (s.processRenderQueue.2).length ≤ 1 := by
  unfold UiState.processRenderQueue
  split
  · simp
  · split
    · simp
    · dsimp only
      split <;> simp

/-- Any single scheduling turn performs at most one pass. -/
theorem uiStep_obs_len (s : UiState) (i : UiInput) :
    ((s.step i).2).length ≤ 1 := by
  cases i with
  | tickEvent t => simp [UiState.step]
  | runTask =>
      unfold UiState.step
      rcases s.tasks with _ | ⟨task, rest⟩
      · simp
      · cases task
        · exact processUpdateQueue_obs_len _
        · exact processRenderQueue_obs_len _

set_option maxRecDepth 40000 in
/-- C5: bus handlers never perform a pass synchronously (they only
enqueue work and schedule a zero-delay drain); each drain task performs
at most one pass; an id in the in-flight set is refused re-entry into
either queue; consequently every trace performs at most one pass per
scheduling turn — update/render passes are strictly sequential and
non-overlapping — and 50 rapid ticks for one id collapse (the update
queue is keyed by id) into exactly one update pass. -/
theorem claim5_serialized_passes :
    (∀ (s : UiState) (t : Timer), (s.step (.tickEvent t)).2 = []) ∧
    (∀ (s : UiState), ((s.step .runTask).2).length ≤ 1) ∧
    (∀ (s : UiState) (t : Timer), t.id ∈ s.processingTimers →
      s.queueUpdate t = s ∧ s.queueRender t = s) ∧
    (∀ (s : UiState) (inputs : List UiInput),
      ∀ o ∈ s.run inputs, o.length ≤ 1) ∧
    (exampleUiState.run (List.replicate 50 (UiInput.tickEvent exampleUiTimer)
        ++ List.replicate 51 UiInput.runTask)).flatten =
      [UiObs.updatePass 1] := by
  refine ⟨?_, ?_, ?_, ?_, ?_⟩
  · intro s t
    simp [UiState.step]
  · intro s
    exact uiStep_obs_len s .runTask
  · intro s t hin
    constructor
    · unfold UiState.queueUpdate
      rw [if_pos hin]
    · unfold UiState.queueRender
      rw [if_pos hin]
  · intro s inputs
    induction inputs generalizing s with
    | nil => intro o ho; simp [UiState.run] at ho
    | cons i rest ih =>
        intro o ho
        unfold UiState.run at ho
        rcases List.mem_cons.mp ho with rfl | ho
        · exact uiStep_obs_len s i
        · exact ih _ o ho
  · decide

/-- Witness for C5: a state whose in-flight set holds id 1 refuses the
tick for that id, and each drain of the example trace performs at most
one pass. -/
theorem claim5_serialized_passes_witness :
    ({ exampleUiState with processingTimers := [1] } : UiState).queueUpdate
      exampleUiTimer = { exampleUiState with processingTimers := [1] } ∧
    ((({ exampleUiState with processingTimers := [1] } : UiState).step
      .runTask).2).length ≤ 1 := by
  constructor
  · exact (claim5_serialized_passes.2.2.1 _ exampleUiTimer
      (by decide)).1
  · exact claim5_serialized_passes.2.1 _

/-- C8 (amended): the resolver tries, in order: (1) exact
case-insensitive match; (2) exact match with the qualifier `" timer"`
appended when the query lacks it (a query already ending in `" timer"`
is retried verbatim — removal is never attempted, that tolerance only
arises later through containment); (3) first query token of length ≥ 3
(only short tokens are skipped, there is no stop-word list) contained in
a stored name; (4) bidirectional substring containment; the first
successful strategy's id wins and no match is a no-op. In particular
`removeByName "pasta"` removes "Pasta boil timer" via keyword
containment, and a query sharing no token with any stored name removes
nothing. -/
theorem claim8_resolver_amended :
    (∀ (timers : List (Nat × Timer)) (name : String),
      findTimerIdByName timers name =
        ((resolveExact timers (strToLower (strTrim name))).orElse fun _ =>
          ((resolveWithSuffix timers (strToLower (strTrim name))).orElse fun _ =>
            ((resolveKeyword timers (strToLower (strTrim name))).orElse fun _ =>
              resolveContains timers (strToLower (strTrim name)))))) ∧
    findTimerIdByName examplePastaCore.timers "pasta" = some 7 ∧
    (examplePastaCore.removeByName "pasta").2 = true ∧
    (examplePastaCore.removeByName "pasta").1.timers = [] ∧
    findTimerIdByName examplePastaCore.timers "xyzq" = none ∧
    (examplePastaCore.removeByName "xyzq").1 = examplePastaCore ∧
    (examplePastaCore.removeByName "xyzq").2 = false := by
  refine ⟨?_, by decide, by decide, by decide, by decide, by decide, by decide⟩
  intro timers name
  unfold findTimerIdByName resolveExact resolveWithSuffix resolveKeyword
    resolveContains
  dsimp only
  rcases h1 : timers.find?
      (fun p => strToLower p.2.name = strToLower (strTrim name)) with _ | p1
  · rw [h1]
    simp only [Option.map_none, Option.orElse_none, Option.none_orElse]
    rcases h2 : timers.find? (fun p => strToLower p.2.name =
        (if jsEndsWith (strToLower (strTrim name)) " timer" then
          strToLower (strTrim name)
        else strToLower (strTrim name) ++ " timer")) with _ | p2
    · rw [h2]
      simp only [Option.map_none, Option.none_orElse]
      rcases h3 : (splitWsTokens (strToLower (strTrim name))).findSome?
          (fun word => if word.length < 3 then none
            else (timers.find? fun p =>
              jsIncludes (strToLower p.2.name) word).map Prod.fst) with _ | id3
      · rw [h3]
        simp
      · rw [h3]
        simp
    · rw [h2]
      simp
  · rw [h1]
    simp

end RecipeViewer
